import Mathlib

/-!
Shallow embedding of the chemfiles GRO format adapter (src/src/formats/GRO.cpp),
the Frame data model (src/include/chemfiles/Frame.hpp), and the selection
parser (src/unnamed/part_002, selections/parser.cpp).

A GRO file is modelled as a `List String` of its lines; the file cursor is a
line index (the C++ `tellg`/`seekg` byte positions are recorded once per line
start and only ever used to seek back to a recorded line start, so line
indices are a faithful abstraction).  Floating point values are modelled as
rationals.
-/

/-! ## String and number parsing primitives

These model the helpers in chemfiles/utils.hpp (`trim`, `split`,
`parse<size_t>`, `parse<double>`), which are not part of src/; they are
modelled from the spec and from their use sites: `trim` strips surrounding
whitespace, `split` splits on a delimiter skipping empty fields, `parse<T>`
parses the whole (trimmed) string as a number or fails. -/

/-- Numeric value of a decimal digit character. -/
def digitVal (c : Char) : Nat := c.toNat - 48

/-- Value of a list of decimal digit characters, most significant first. -/
def digitsVal (cs : List Char) : Nat :=
  cs.foldl (fun acc c => 10 * acc + digitVal c) 0

/-- Strip leading and trailing space characters from a character list. -/
def trimChars (cs : List Char) : List Char :=
  ((cs.dropWhile (fun c => c = ' ')).reverse.dropWhile (fun c => c = ' ')).reverse

/-- Modelled from the spec: chemfiles `trim` (utils.hpp, not in src/) strips
surrounding whitespace from a string. -/
def trim (s : String) : String := String.mk (trimChars s.toList)

/-- Modelled from the spec: chemfiles `parse<size_t>` (utils.hpp, not in
src/): the trimmed string must be a non-empty run of decimal digits. -/
def parseNat (s : String) : Option Nat :=
  let cs := trimChars s.toList
  if !cs.isEmpty && cs.all Char.isDigit then some (digitsVal cs) else none

/-- Parse an optional sign, an integer part and an optional fractional part
from a character list; the whole list must be consumed. -/
def parseNumCore (cs : List Char) : Option ℚ :=
  let signed : Bool × List Char :=
    match cs with
    | '-' :: rest => (true, rest)
    | '+' :: rest => (false, rest)
    | _ => (false, cs)
  let neg := signed.1
  let body := signed.2
  let ip := body.takeWhile Char.isDigit
  let rest := body.dropWhile Char.isDigit
  let mag : Option ℚ :=
    match rest with
    | [] => if ip.isEmpty then none else some ((digitsVal ip : ℚ))
    | '.' :: frac =>
      if frac.all Char.isDigit && !(ip.isEmpty && frac.isEmpty) then
        some ((digitsVal ip : ℚ) + (digitsVal frac : ℚ) / (10 : ℚ) ^ frac.length)
      else none
    | _ => none
  mag.map (fun q => if neg then -q else q)

/-- Modelled from the spec: chemfiles `parse<double>` (utils.hpp, not in
src/): the trimmed string must be a decimal number (an optional sign, digits,
an optional fractional part). -/
def parseNum (s : String) : Option ℚ := parseNumCore (trimChars s.toList)

/-- Split a character list on a delimiter, skipping empty fields. -/
def splitNE (c : Char) : List Char → List String
  | [] => []
  | x :: rest =>
    if x = c then splitNE c rest
    else
      String.mk (x :: rest.takeWhile (fun d => !(d = c))) ::
        splitNE c (rest.dropWhile (fun d => !(d = c)))
termination_by cs => cs.length
decreasing_by
  · simp
  · have := List.Sublist.length_le (List.dropWhile_sublist (fun d => !(d = c)) (l := rest))
    simp
    omega

/-- Modelled from the spec: chemfiles `split` (utils.hpp, not in src/) splits
on the delimiter and skips empty fields (the GRO box line is written with
leading and double spaces and read back through `split`, so empty fields must
be skipped for the documented round-trip to hold). -/
def split (s : String) (c : Char) : List String := splitNE c s.toList

/-- The substring of `n` characters starting at byte `a`, as a character
list: models `line.substr(a, n)` on the ASCII lines of a GRO file. -/
def substr (s : String) (a n : Nat) : String :=
  String.mk ((s.toList.drop a).take n)

/-! ## Vectors, matrices, cells -/

/-- Model of chemfiles `Vector3D`: an ordered triple of reals (as rationals). -/
structure Vector3D where
  x : ℚ
  y : ℚ
  z : ℚ
deriving DecidableEq

def Vector3D.zero : Vector3D := ⟨0, 0, 0⟩

/-- Componentwise scaling, models `Vector3D / 10` and similar. -/
def Vector3D.scale (v : Vector3D) (q : ℚ) : Vector3D := ⟨v.x * q, v.y * q, v.z * q⟩

/-- Model of chemfiles `Matrix3D` (row-major constructor order). -/
structure Matrix3D where
  m00 : ℚ
  m01 : ℚ
  m02 : ℚ
  m10 : ℚ
  m11 : ℚ
  m12 : ℚ
  m20 : ℚ
  m21 : ℚ
  m22 : ℚ
deriving DecidableEq

/-- Modelled from the spec: chemfiles `UnitCell` (UnitCell.cpp is not in
src/): a shape variant over INFINITE, ORTHORHOMBIC (three lengths) and
TRICLINIC (an explicit cell matrix).  The spec maps a 3-float GRO box line to
an orthorhombic cell and a 9-float one to a triclinic cell. -/
inductive UnitCell where
  | infinite
  | ortho (a b c : ℚ)
  | triclinic (m : Matrix3D)
deriving DecidableEq

/-! ## Atoms, residues, frames (src/include/chemfiles/Frame.hpp) -/

/-- Model of chemfiles `Atom` restricted to the fields the GRO adapter uses
(only the name is set by `Atom(name)` in GRO.cpp). -/
structure Atom where
  name : String
deriving DecidableEq

/-- Model of chemfiles `Residue`: a name, an optional numeric id, and the
list of atom indices added through `Residue::add_atom`. -/
structure Residue where
  name : String
  id : Option Nat
  atoms : List Nat
deriving DecidableEq

/-- Model of chemfiles `Frame` (Frame.hpp): positions, optional velocities,
the atoms and residues of its topology, the unit cell, and the one frame
property the GRO adapter touches (the "name" property, kept as an optional
string). -/
structure Frame where
  name : Option String
  atoms : List Atom
  positions : List Vector3D
  velocities : Option (List Vector3D)
  cell : UnitCell
  residues : List Residue
deriving DecidableEq

/-- Number of atoms in the frame (`Frame::size`). -/
def Frame.size (f : Frame) : Nat := f.positions.length

/-- Model of `frame.set("name", value)`. -/
def Frame.setName (f : Frame) (v : String) : Frame := { f with name := some v }

/-- Model of `Frame::add_velocities` (Frame.hpp lines 145-151): if velocities
are already defined this does nothing, otherwise new velocities initialized
to 0 are added. -/
def Frame.add_velocities (f : Frame) : Frame :=
  match f.velocities with
  | some _ => f
  | none => { f with velocities := some (List.replicate f.size Vector3D.zero) }

/-- Model of `Frame::resize` (Frame.hpp lines 185-194): growing zero-pads
positions, velocities and atoms; shrinking truncates them and drops the
connectivity elements (here: residues) that reference removed atoms. -/
def Frame.resize (f : Frame) (n : Nat) : Frame :=
  { f with
    atoms := f.atoms.take n ++ List.replicate (n - f.atoms.length) ⟨""⟩,
    positions := f.positions.take n ++ List.replicate (n - f.positions.length) Vector3D.zero,
    velocities := f.velocities.map
      (fun v => v.take n ++ List.replicate (n - v.length) Vector3D.zero),
    residues :=
      if n < f.size then f.residues.filter (fun r => r.atoms.all (fun i => i < n))
      else f.residues }

/-- Model of `Frame::add_atom` (Frame.hpp lines 204-209): appends the atom
and its position; the velocity is appended only if the frame holds velocity
data.  The C++ default argument for a missing velocity is the zero vector. -/
def Frame.add_atom (f : Frame) (a : Atom) (pos vel : Vector3D) : Frame :=
  { f with
    atoms := f.atoms ++ [a],
    positions := f.positions ++ [pos],
    velocities := f.velocities.map (fun v => v ++ [vel]) }

/-- Model of `Frame::add_residue` (delegating to the topology): appends. -/
def Frame.add_residue (f : Frame) (r : Residue) : Frame :=
  { f with residues := f.residues ++ [r] }

/-- Model of `Topology::residue_for_atom`: the residue containing atom `i`,
if any (residues do not overlap). -/
def Frame.residue_for_atom (f : Frame) (i : Nat) : Option Residue :=
  f.residues.find? (fun r => r.atoms.contains i)

/-! ## GROFormat::read (GRO.cpp lines 56-158)

The result of a read models the C++ in-place mutation of the frame together
with exception propagation: an `err` result carries the message of the thrown
error and the state the frame was left in at the moment of the throw. -/

/-- Result of `GROFormat::read`: either success with the resulting frame and
the remaining lines of the file, or a thrown error together with the state
the caller frame was left in (C++ mutates the frame in place, so a throw
leaves the mutations done so far) and the remaining lines. -/
inductive ReadResult where
  | ok (frame : Frame) (rest : List String) : ReadResult
  | err (msg : String) (frame : Frame) (rest : List String) : ReadResult
deriving DecidableEq

/-- One parsed GRO atom line: the optional residue id, the residue name, the
atom name, the position (already multiplied by 10: nm to angstrom) and the
optional velocity (idem). -/
structure GroAtomLine where
  resid : Option Nat
  resname : String
  atomName : String
  pos : Vector3D
  vel : Option Vector3D
deriving DecidableEq

/-- Parsing of one GRO atom line, following GRO.cpp lines 70-105: lines
shorter than 44 characters are an error; the residue id (columns 0-5) is
skipped if unparsable; positions are at columns 20/28/36 (8 wide) and, when
the line has at least 68 characters, velocities at 44/52/60; every value read
from the file is multiplied by 10 (nm to angstrom). -/
def parseAtomLine (line : String) : Except String GroAtomLine :=
  if line.toList.length < 44 then
    .error ("GRO Atom line is too small: " ++ line)
  else
    let resid := parseNat (substr line 0 5)
    let resname := trim (substr line 5 5)
    let name := trim (substr line 10 5)
    match parseNum (substr line 20 8), parseNum (substr line 28 8),
          parseNum (substr line 36 8) with
    | some x, some y, some z =>
      if 68 ≤ line.toList.length then
        match parseNum (substr line 44 8), parseNum (substr line 52 8),
              parseNum (substr line 60 8) with
        | some vx, some vy, some vz =>
          .ok ⟨resid, resname, name, ⟨x * 10, y * 10, z * 10⟩,
               some ⟨vx * 10, vy * 10, vz * 10⟩⟩
        | _, _, _ => .error "can not parse velocity in GRO atom line"
      else
        .ok ⟨resid, resname, name, ⟨x * 10, y * 10, z * 10⟩, none⟩
    | _, _, _ => .error "can not parse position in GRO atom line"

/-- The `residues_` member of GROFormat: a `std::map<size_t, Residue>`, kept
as an association list sorted by key. -/
def insertResidue (m : List (Nat × Residue)) (resid : Nat) (resname : String)
    (atomIdx : Nat) : List (Nat × Residue) :=
  match m with
  | [] => [(resid, ⟨resname, some resid, [atomIdx]⟩)]
  | (k, r) :: rest =>
    if resid < k then (resid, ⟨resname, some resid, [atomIdx]⟩) :: (k, r) :: rest
    else if resid = k then (k, { r with atoms := r.atoms ++ [atomIdx] }) :: rest
    else (k, r) :: insertResidue rest resid resname atomIdx

/-- The box-line handling and the residue flush at the end of
`GROFormat::read` (GRO.cpp lines 120-158).  `split` on the box line must give
exactly 3 fields (orthorhombic) or exactly 9 fields (triclinic, in the order
v1x v2y v3z 0 0 v2x 0 v3x v3y) for the cell to be set; any other field count
leaves the cell untouched.  The `assert`s on fields 3, 4 and 6 are modelled
as in a release build (not evaluated).  Every parsed value is multiplied by
10 (nm to angstrom). -/
def groReadBox (frame : Frame) (res : List (Nat × Residue)) :
    List String → ReadResult
  | [] => .err "file error: can not read box line" frame []
  | box :: rest =>
    let vals := split box ' '
    let withCell : Except String Frame :=
      if vals.length = 3 then
        match parseNum (vals.getD 0 ""), parseNum (vals.getD 1 ""),
              parseNum (vals.getD 2 "") with
        | some a, some b, some c =>
          .ok { frame with cell := UnitCell.ortho (a * 10) (b * 10) (c * 10) }
        | _, _, _ => .error "can not parse box line"
      else if vals.length = 9 then
        match parseNum (vals.getD 0 ""), parseNum (vals.getD 1 ""),
              parseNum (vals.getD 2 ""), parseNum (vals.getD 5 ""),
              parseNum (vals.getD 7 ""), parseNum (vals.getD 8 "") with
        | some v1x, some v2y, some v3z, some v2x, some v3x, some v3y =>
          let h : Matrix3D :=
            ⟨v1x * 10, v2x * 10, v3x * 10,
             0, v2y * 10, v3y * 10,
             0, 0, v3z * 10⟩
          .ok { frame with cell := UnitCell.triclinic h }
        | _, _, _, _, _, _ => .error "can not parse box line"
      else .ok frame
    match withCell with
    | .error m => .err m frame rest
    | .ok frame' =>
      .ok (res.foldl (fun f kr => f.add_residue kr.2) frame') rest

/-- The atom loop of `GROFormat::read` (GRO.cpp lines 70-118): parse each of
the atom lines in order, adding atoms (with a zero velocity when the line has
no velocity columns, through the `add_atom` default argument) and collecting
residues; on a parse error the frame keeps the atoms added so far. -/
def groAtomsLoop (frame : Frame) (res : List (Nat × Residue)) :
    List String → List String → ReadResult
  | [], rest => groReadBox frame res rest
  | line :: more, rest =>
    match parseAtomLine line with
    | .error m => .err m frame (more ++ rest)
    | .ok parsed =>
      let frame' :=
        match parsed.vel with
        | some v => frame.add_atom ⟨parsed.atomName⟩ parsed.pos v
        | none => frame.add_atom ⟨parsed.atomName⟩ parsed.pos Vector3D.zero
      let res' :=
        match parsed.resid with
        | some r => insertResidue res r parsed.resname (frame'.size - 1)
        | none => res
      groAtomsLoop frame' res' more rest

/-- Model of `GROFormat::read` (GRO.cpp lines 56-158).  The comment line is
stored in the frame's "name" property before the atom count is parsed; then
velocities are enabled unconditionally and the frame is resized to 0; then
`readlines(natoms)` fetches the atom lines (failing if fewer remain), the
atom loop runs, and the box line is read. -/
def groRead (frame : Frame) (lines : List String) : ReadResult :=
  match lines with
  | [] => .err "can not read next step as GRO" frame []
  | title :: rest =>
    let frame1 := frame.setName title
    match rest with
    | [] => .err "can not read next step as GRO" frame1 []
    | natomsLine :: rest2 =>
      match parseNat natomsLine with
      | none => .err "can not read next step as GRO" frame1 rest2
      | some natoms =>
        let frame2 := (frame1.add_velocities).resize 0
        if rest2.length < natoms then
          .err "file error: not enough lines for atoms" frame2 rest2
        else
          groAtomsLoop frame2 [] (rest2.take natoms) (rest2.drop natoms)

/-! ## Step indexing: forward and the GROFormat constructor
(GRO.cpp lines 31-54 and 272-297) -/

/-- Result of one `forward` call (GRO.cpp lines 272-297) on the remaining
lines of the file: `eofR` when a readline hit the end of file (`forward`
returns false and the constructor loop stops), `skipR k` when the atom count
did not parse (`forward` returns false after consuming `k` lines and the
loop goes on), `stepR k` when one full step of `k` lines was skipped
(`forward` returns true), and `truncatedR` when `readlines(natoms + 1)`
failed (a format error is thrown out of the constructor). -/
inductive ForwardResult where
  | eofR : ForwardResult
  | skipR (k : Nat) : ForwardResult
  | stepR (k : Nat) : ForwardResult
  | truncatedR : ForwardResult
deriving DecidableEq

/-- Model of `forward` (GRO.cpp lines 272-297): skip the comment line, parse
the atom count, then skip `natoms + 1` lines (the atoms and the box line). -/
def forward (lines : List String) : ForwardResult :=
  match lines with
  | [] => .eofR
  | [_] => .eofR
  | _ :: natomsLine :: rest =>
    match parseNat natomsLine with
    | none => .skipR 2
    | some natoms =>
      if rest.length < natoms + 1 then .truncatedR
      else .stepR (natoms + 3)

/-- The constructor scan of GROFormat (GRO.cpp lines 31-44): record the
position of every chunk on which `forward` succeeds, by one linear forward
scan; a truncated step makes the whole constructor fail (`none`).  The
recursion inlines `forward` so that each branch consumes a statically
positive number of lines; `scanSteps_eq_forward` below relates it to
`forward`. -/
def scanSteps : List String → Nat → Option (List Nat)
  | [], _ => some []
  | [_], _ => some []
  | _ :: natomsLine :: rest, pos =>
    match parseNat natomsLine with
    | none => scanSteps rest (pos + 2)
    | some natoms =>
      if rest.length < natoms + 1 then none
      else (scanSteps (rest.drop (natoms + 1)) (pos + natoms + 3)).map
        (fun ps => pos :: ps)
termination_by lines _ => lines.length
decreasing_by
  all_goals simp [List.length_drop]
  all_goals omega

/-- The GROFormat state after construction: the file content and the
recorded step positions (`steps_positions_`). -/
structure GROFormat where
  lines : List String
  steps : List Nat
deriving DecidableEq

/-- The GROFormat constructor (GRO.cpp lines 31-44): scan the file and
record step positions; fails (`none`) when the scan throws. -/
def GROFormat.openFile (lines : List String) : Option GROFormat :=
  (scanSteps lines 0).map (fun ps => ⟨lines, ps⟩)

/-- `GROFormat::nsteps` (GRO.cpp lines 46-48). -/
def GROFormat.nsteps (g : GROFormat) : Nat := g.steps.length

/-- `GROFormat::read_step` (GRO.cpp lines 50-54): seek to the recorded
position of the step (the `assert(step < steps_positions_.size())` is a
precondition carried by the theorems) and delegate to `read`. -/
def GROFormat.read_step (g : GROFormat) (step : Nat) (frame : Frame) : ReadResult :=
  groRead frame (g.lines.drop (g.steps.getD step 0))

/-- Sequential reading: thread the frame through `n` successful `read`
calls, returning the final frame and the remaining lines (`none` as soon as
one read fails). -/
def seqRead : Frame → List String → Nat → Option (Frame × List String)
  | f, lines, 0 => some (f, lines)
  | f, lines, n + 1 =>
    match groRead f lines with
    | .ok f' rest => seqRead f' rest n
    | .err _ _ _ => none

/-- Modelled from the spec: the Trajectory engine (section 4.3; Trajectory
code is not in src/, only the GROFormat it delegates to).  It holds the
format and a step index; `read_step(i)` reads step `i` and sets
`step_index = i + 1`, and is an error when `i >= nsteps()`. -/
structure Trajectory where
  fmt : GROFormat
  step_index : Nat
deriving DecidableEq

/-- Modelled from the spec: `Trajectory::read_step` (section 4.3): error if
`i >= nsteps()`, otherwise delegate to the format's `read_step` and set
`step_index = i + 1`. -/
def Trajectory.read_step (t : Trajectory) (i : Nat) (frame : Frame) :
    Except String (Frame × Trajectory) :=
  if i < t.fmt.nsteps then
    match t.fmt.read_step i frame with
    | .ok f _ => .ok (f, { t with step_index := i + 1 })
    | .err m _ _ => .error m
  else .error "can not read file past end"

/-! ## GROFormat::write (GRO.cpp lines 160-259) -/

/-- Decimal digits of a natural number, most significant first; models
`std::to_string` on unsigned values. -/
def natToChars (n : Nat) : List Char :=
  if h : n < 10 then [Char.ofNat (48 + n)]
  else natToChars (n / 10) ++ [Char.ofNat (48 + n % 10)]
decreasing_by
  exact Nat.div_lt_self (by omega) (by omega)

/-- Decimal string of a natural number (`std::to_string`). -/
def natStr (n : Nat) : String := String.mk (natToChars n)

/-- Pad a string on the left with spaces to the given width (the fmt
specifier of the form colon, space, greater-than, width: right alignment);
strings already at least that wide are unchanged. -/
def padLeft (w : Nat) (s : String) : String :=
  String.mk (List.replicate (w - s.toList.length) ' ' ++ s.toList)

/-- Pad a string on the right with spaces to the given width (the fmt
specifier of the form colon, space, less-than, width: left alignment). -/
def padRight (w : Nat) (s : String) : String :=
  String.mk (s.toList ++ List.replicate (w - s.toList.length) ' ')

/-- Fixed-point formatting of a rational with `prec` digits after the
decimal point, left-padded with spaces to `width`; models the fmt specifier
with a width, a dot, a precision and the letter f on a double. -/
def fmtFixed (q : ℚ) (prec width : Nat) : String :=
  let n : ℤ := round (q * (10 : ℚ) ^ prec)
  let a : Nat := n.natAbs
  let ipart := natStr (a / 10 ^ prec)
  let fpart := natToChars (a % 10 ^ prec)
  let fpadded := List.replicate (prec - fpart.length) '0' ++ fpart
  let body := (if n < 0 then "-" else "") ++ ipart ++ "." ++ String.mk fpadded
  padLeft width body

/-- `to_gro_index` (GRO.cpp lines 160-167): indices at least 99999 print as
five stars (and emit a warning at the call site), the rest print one-based. -/
def to_gro_index (i : Nat) : String :=
  if 99999 ≤ i then "*****" else natStr (i + 1)

/-- `check_values_size` (GRO.cpp lines 261-270), as the predicate "throws":
true when some component has too many digits before the decimal separator
for the given width. -/
def check_values_size (v : Vector3D) (width : Nat) : Bool :=
  let maxPos : ℚ := (10 : ℚ) ^ width - 1
  let maxNeg : ℚ := -((10 : ℚ) ^ (width - 1)) + 1
  v.x > maxPos || v.y > maxPos || v.z > maxPos ||
    v.x < maxNeg || v.y < maxNeg || v.z < maxNeg

/-- The initial `max_resid` of `GROFormat::write` (GRO.cpp lines 176-182):
one more than the largest residue id, and at least 1. -/
def initMaxResid (f : Frame) : Nat :=
  f.residues.foldl
    (fun m r =>
      match r.id with
      | some v => if v > m then v + 1 else m
      | none => m)
    1

/-- The per-atom body of `GROFormat::write` (GRO.cpp lines 185-234): compute
the residue name (truncated to 5 characters with a warning when longer) and
the residue id column (the id when at most 99999; a generated id from
`max_resid` for atoms without one; the initial "-1" is kept, with a warning
for an explicit id above 99999), check the scaled position (and velocity)
sizes, and produce the fixed-column line.  Returns the line, the warnings
emitted, and the updated `max_resid`; a `check_values_size` throw is an
error carrying the warnings emitted before it. -/
def groWriteAtom (f : Frame) (i : Nat) (maxResid : Nat) :
    Except (String × List String) (String × List String × Nat) :=
  let r? := f.residue_for_atom i
  let named : String × List String :=
    match r? with
    | some r =>
      if 5 < r.name.toList.length then
        (String.mk (r.name.toList.take 5),
         ["Residue " ++ r.name ++ " has a name too long for GRO format, it will be truncated."])
      else (r.name, [])
    | none => ("XXXXX", [])
  let resname := named.1
  let warn1 := named.2
  let rid : String × List String × Nat :=
    match r? with
    | some r =>
      match r.id with
      | some v =>
        if v ≤ 99999 then (natStr v, [], maxResid)
        else ("-1", ["Too many residues for GRO format, removing residue id"], maxResid)
      | none =>
        (if maxResid ≤ 99999 then natStr maxResid else "-1", [], maxResid + 1)
    | none =>
      (if maxResid ≤ 99999 then natStr maxResid else "-1", [], maxResid + 1)
  let resid := rid.1
  let warn2 := rid.2.1
  let maxResid' := rid.2.2
  let pos := (f.positions.getD i Vector3D.zero).scale (1 / 10)
  if check_values_size pos 8 then
    .error ("value in atomic position is too big for representation in GRO format",
            warn1 ++ warn2)
  else
    let warn3 : List String :=
      if 99999 ≤ i then ["Too many atoms for GRO format, removing atomic id"] else []
    let front := padLeft 5 resid ++ padRight 5 resname ++
      padLeft 5 (f.atoms.getD i ⟨""⟩).name ++ padLeft 5 (to_gro_index i)
    match f.velocities with
    | some vs =>
      let vel := (vs.getD i Vector3D.zero).scale (1 / 10)
      if check_values_size vel 8 then
        .error ("value in atomic velocity is too big for representation in GRO format",
                warn1 ++ warn2)
      else
        .ok (front ++ fmtFixed pos.x 3 8 ++ fmtFixed pos.y 3 8 ++ fmtFixed pos.z 3 8
               ++ fmtFixed vel.x 4 8 ++ fmtFixed vel.y 4 8 ++ fmtFixed vel.z 4 8,
             warn1 ++ warn2 ++ warn3, maxResid')
    | none =>
      .ok (front ++ fmtFixed pos.x 3 8 ++ fmtFixed pos.y 3 8 ++ fmtFixed pos.z 3 8,
           warn1 ++ warn2 ++ warn3, maxResid')

/-- The atom loop of `GROFormat::write`: write atoms `i, i+1, ...` while `n`
counts down, accumulating lines and warnings and threading `max_resid`. -/
def groWriteAtoms (f : Frame) : Nat → Nat → Nat → List String → List String →
    Except (String × List String) (List String × List String × Nat)
  | _, 0, maxResid, lines, warns => .ok (lines, warns, maxResid)
  | i, n + 1, maxResid, lines, warns =>
    match groWriteAtom f i maxResid with
    | .error (m, w) => .error (m, warns ++ w)
    | .ok (line, w, maxResid') =>
      groWriteAtoms f (i + 1) n maxResid' (lines ++ [line]) (warns ++ w)

/-- The box line of `GROFormat::write` (GRO.cpp lines 236-256): orthorhombic
and infinite cells print three lengths divided by 10 (zeros for an infinite
cell); triclinic cells print the upper-triangular matrix entries divided by
10 in the order m00 m11 m22 0.0 0.0 m01 0.0 m02 m12. -/
def groWriteCell (cell : UnitCell) : Except String String :=
  match cell with
  | .infinite =>
    .ok ("  " ++ fmtFixed 0 5 8 ++ "  " ++ fmtFixed 0 5 8 ++ "  " ++ fmtFixed 0 5 8)
  | .ortho a b c =>
    if check_values_size ⟨a / 10, b / 10, c / 10⟩ 8 then
      .error "value in Unit Cell is too big for representation in GRO format"
    else
      .ok ("  " ++ fmtFixed (a / 10) 5 8 ++ "  " ++ fmtFixed (b / 10) 5 8 ++
           "  " ++ fmtFixed (c / 10) 5 8)
  | .triclinic m =>
    if check_values_size ⟨m.m00 / 10, m.m11 / 10, m.m22 / 10⟩ 8 ||
       check_values_size ⟨m.m01 / 10, m.m02 / 10, m.m12 / 10⟩ 8 then
      .error "value in Unit Cell is too big for representation in GRO format"
    else
      .ok ("  " ++ fmtFixed (m.m00 / 10) 5 8 ++ "  " ++ fmtFixed (m.m11 / 10) 5 8 ++
           "  " ++ fmtFixed (m.m22 / 10) 5 8 ++ " 0.0 0.0  " ++
           fmtFixed (m.m01 / 10) 5 8 ++ " 0.0  " ++ fmtFixed (m.m02 / 10) 5 8 ++
           "  " ++ fmtFixed (m.m12 / 10) 5 8)

/-- Model of `GROFormat::write` (GRO.cpp lines 169-259): the title line (the
"name" property or the default), the atom count right-aligned to width 5,
one line per atom, and the box line.  Returns the written lines and the
warnings; an error is a `check_values_size` throw. -/
def groWrite (f : Frame) : Except (String × List String) (List String × List String) :=
  let title := f.name.getD "GRO File produced by chemfiles"
  let countLine := padLeft 5 (natStr f.size)
  match groWriteAtoms f 0 f.size (initMaxResid f) [] [] with
  | .error e => .error e
  | .ok (atomLines, warns, _) =>
    match groWriteCell f.cell with
    | .error m => .error (m, warns)
    | .ok boxLine => .ok (title :: countLine :: (atomLines ++ [boxLine]), warns)

/-! ## Selection parser (src/unnamed/part_002, selections/parser.cpp)

The selection string is tokenized and brought into the reversed-postfix
order the parsers expect (so the parsers see, for a binary clause, first the
operator token, then the value token, then the identifier token; and a
boolean operator first, followed by its right operand and then its left
operand).  The token stream below is that stream. -/

/-- Model of the selection `Token` kinds used by the parsers in src. -/
inductive Token where
  | ident (s : String) : Token
  | num (q : ℚ) : Token
  | eq : Token
  | neq : Token
  | lt : Token
  | le : Token
  | gt : Token
  | ge : Token
  | andT : Token
  | orT : Token
  | notT : Token
deriving DecidableEq

/-- Model of `BinOp` (EQ, NEQ, LT, LE, GT, GE). -/
inductive BinOp where
  | EQ : BinOp
  | NEQ : BinOp
  | LT : BinOp
  | LE : BinOp
  | GT : BinOp
  | GE : BinOp
deriving DecidableEq

/-- The cast `BinOp(token.type())` guarded by `is_binary_op`. -/
def tokenToBinOp (t : Token) : Option BinOp :=
  match t with
  | .eq => some .EQ
  | .neq => some .NEQ
  | .lt => some .LT
  | .le => some .LE
  | .gt => some .GT
  | .ge => some .GE
  | _ => none

/-- Model of the selection AST (`Expr` subclasses in src: `NameExpr`,
`IndexExpr`, `AndExpr`, `OrExpr`, `NotExpr`). -/
inductive SelAst where
  | nameE (n : String) (equals : Bool) : SelAst
  | indexE (op : BinOp) (val : Nat) : SelAst
  | andE (lhs rhs : SelAst) : SelAst
  | orE (lhs rhs : SelAst) : SelAst
  | notE (a : SelAst) : SelAst
deriving DecidableEq

/-- Model of `ParserError`, the `SelectionError` thrown by the parsers in
src: it is constructed from a message string only, and carries no other
data (in particular no byte offset). -/
structure ParserError where
  message : String
deriving DecidableEq

/-- Model of `selections::parse<NameExpr>` (part_002 lines 49-60): expects
the operator at position 0 (EQ or NEQ), the name identifier at position 1
and the `name` keyword at position 2; consumes three tokens. -/
def parseName (ts : List Token) : Except ParserError (SelAst × List Token) :=
  match ts with
  | op :: .ident n :: .ident "name" :: rest =>
    match op with
    | .eq => .ok (.nameE n true, rest)
    | .neq => .ok (.nameE n false, rest)
    | _ => .error ⟨"Name selection must follow the pattern: name == \x7bname\x7d | name != \x7bname\x7d"⟩
  | _ :: _ :: .ident "name" :: _ =>
    .error ⟨"Name selection must follow the pattern: name == \x7bname\x7d | name != \x7bname\x7d"⟩
  | _ => .error ⟨"assertion failure in parse of name expression"⟩

/-- Model of `selections::parse<IndexExpr>` (part_002 lines 147-165):
expects a binary operator at position 0, the value at position 1 and the
`index` keyword at position 2; the value must be an integral number;
consumes three tokens. -/
def parseIndex (ts : List Token) : Except ParserError (SelAst × List Token) :=
  match ts with
  | op :: arg :: .ident "index" :: rest =>
    match tokenToBinOp op with
    | some b =>
      match arg with
      | .num q =>
        if q.den = 1 then .ok (.indexE b q.num.toNat, rest)
        else .error ⟨"Index selection should contain an integer"⟩
      | _ => .error ⟨"Index selection should contain an integer"⟩
    | none => .error ⟨"assertion failure in parse of index expression"⟩
  | _ => .error ⟨"assertion failure in parse of index expression"⟩

/-- Model of `selections::parse<AndExpr>` (part_002 lines 174-195),
parameterized by the `dispatch_parsing` function it calls on its operands:
consume the `and` token, parse the right operand, then parse the left
operand; a missing operand or a failing operand parse is a `ParserError`
naming the side. -/
def parseAndWith
    (dp : List Token → Except ParserError (SelAst × List Token))
    (ts : List Token) : Except ParserError (SelAst × List Token) :=
  match ts with
  | .andT :: rest =>
    if rest.isEmpty then .error ⟨"Missing right-hand side operand to and"⟩
    else
      match dp rest with
      | .error e => .error ⟨"Error in right-hand side operand to and: " ++ e.message⟩
      | .ok (rhs, rest2) =>
        if rest2.isEmpty then .error ⟨"Missing left-hand side operand to and"⟩
        else
          match dp rest2 with
          | .error e => .error ⟨"Error in left-hand side operand to and: " ++ e.message⟩
          | .ok (lhs, rest3) => .ok (.andE lhs rhs, rest3)
  | _ => .error ⟨"assertion failure in parse of and expression"⟩

/-- Model of `selections::parse<OrExpr>` (part_002 lines 204-225), the same
structure as `parseAndWith` for the `or` token. -/
def parseOrWith
    (dp : List Token → Except ParserError (SelAst × List Token))
    (ts : List Token) : Except ParserError (SelAst × List Token) :=
  match ts with
  | .orT :: rest =>
    if rest.isEmpty then .error ⟨"Missing right-hand side operand to or"⟩
    else
      match dp rest with
      | .error e => .error ⟨"Error in right-hand side operand to or: " ++ e.message⟩
      | .ok (rhs, rest2) =>
        if rest2.isEmpty then .error ⟨"Missing left-hand side operand to or"⟩
        else
          match dp rest2 with
          | .error e => .error ⟨"Error in left-hand side operand to or: " ++ e.message⟩
          | .ok (lhs, rest3) => .ok (.orE lhs rhs, rest3)
  | _ => .error ⟨"assertion failure in parse of or expression"⟩

/-- Model of `selections::parse<NotExpr>` (part_002 lines 233-246): consume
the `not` token and parse the single operand. -/
def parseNotWith
    (dp : List Token → Except ParserError (SelAst × List Token))
    (ts : List Token) : Except ParserError (SelAst × List Token) :=
  match ts with
  | .notT :: rest =>
    if rest.isEmpty then .error ⟨"Missing operand to not"⟩
    else
      match dp rest with
      | .error e => .error ⟨"Error in operand of not: " ++ e.message⟩
      | .ok (a, rest2) => .ok (.notE a, rest2)
  | _ => .error ⟨"assertion failure in parse of not expression"⟩

/-- Modelled from the spec: `dispatch_parsing` (declared in
selections/parser.hpp, not in src/): recursive descent over the token
stream, dispatching on the head token to the boolean parsers and, for a
binary operator head, on the identifier at position 2 to the leaf parsers
(only the leaf parsers present in src are dispatched here).  The fuel
argument bounds the recursion depth; `dispatch` below supplies enough fuel
for any input. -/
def dispatchFuel : Nat → List Token → Except ParserError (SelAst × List Token)
  | 0, _ => .error ⟨"selection expression too deeply nested"⟩
  | _ + 1, [] => .error ⟨"empty selection expression"⟩
  | fuel + 1, t :: rest =>
    match t with
    | .andT => parseAndWith (dispatchFuel fuel) (t :: rest)
    | .orT => parseOrWith (dispatchFuel fuel) (t :: rest)
    | .notT => parseNotWith (dispatchFuel fuel) (t :: rest)
    | _ =>
      match (t :: rest).getD 2 t with
      | .ident "name" => parseName (t :: rest)
      | .ident "index" => parseIndex (t :: rest)
      | _ => .error ⟨"could not parse the selection"⟩

/-- Modelled from the spec: `dispatch_parsing` with enough fuel (each
recursive call consumes at least one token, so the stream length bounds the
depth). -/
def dispatch (ts : List Token) : Except ParserError (SelAst × List Token) :=
  dispatchFuel ts.length ts

/-! ## Concrete data used by the witnesses and counterexamples -/

/-- A fresh empty frame (`Frame()`): no atoms, no velocities, infinite cell. -/
def Frame0 : Frame := ⟨none, [], [], none, .infinite, []⟩

/-- A well-formed 44-character GRO atom line (no velocity columns). -/
def atomLine44 : String := "    1RES      A    1   0.100   0.200   0.300"

/-- A 3-field GRO box line. -/
def demoBox : String := "   1.0 2.0 3.0"

/-- A two-step GRO file. -/
def demoLines : List String :=
  ["t", "1", atomLine44, demoBox, "u", "1", atomLine44, demoBox]

/-- The frame produced by reading the first step of `demoLines`. -/
def demoF1 : Frame :=
  ⟨some "t", [⟨"A"⟩], [⟨1, 2, 3⟩], some [⟨0, 0, 0⟩], .ortho 10 20 30,
   [⟨"RES", some 1, [0]⟩]⟩

/-- The frame produced by reading the second step of `demoLines`. -/
def demoF2 : Frame :=
  ⟨some "u", [⟨"A"⟩], [⟨1, 2, 3⟩], some [⟨0, 0, 0⟩], .ortho 10 20 30,
   [⟨"RES", some 1, [0]⟩]⟩

/-- The lines remaining after reading the first step of `demoLines`. -/
def demoRest1 : List String := ["u", "1", atomLine44, demoBox]

/-- A frame with one atom belonging to a residue whose id 100000 exceeds the
GRO limit of 99999. -/
def DemoResidFrame : Frame :=
  ⟨none, [⟨"A"⟩], [⟨0, 0, 0⟩], none, .infinite, [⟨"RES", some 100000, [0]⟩]⟩

/-- The atom line `GROFormat::write` produces for `DemoResidFrame`. -/
def demoResidLine : String := "   -1RES      A    1   0.000   0.000   0.000"

/-- The box line `GROFormat::write` produces for an infinite cell. -/
def demoZeroBox : String := "   0.00000   0.00000   0.00000"

/-- A frame with 100000 atoms named "A" at the origin, no velocities, no
residues. -/
def bigFrame : Frame :=
  ⟨some "big", List.replicate 100000 ⟨"A"⟩, List.replicate 100000 Vector3D.zero,
   none, .infinite, []⟩

/-- The residue id column content generated for atom `i` of `bigFrame`
(ids are generated from `max_resid`, which starts at 1). -/
def bigResid (i : Nat) : String := if i + 1 ≤ 99999 then natStr (i + 1) else "-1"

/-- The warnings emitted while writing atom `i` of `bigFrame`. -/
def bigWarn (i : Nat) : List String :=
  if 99999 ≤ i then ["Too many atoms for GRO format, removing atomic id"] else []

/-- The atom line `GROFormat::write` produces for atom `i` of `bigFrame`. -/
def bigAtomLine (i : Nat) : String :=
  padLeft 5 (bigResid i) ++ padRight 5 "XXXXX" ++ padLeft 5 "A" ++
    padLeft 5 (to_gro_index i) ++ "   0.000   0.000   0.000"

/-- The full file produced by writing `bigFrame` in GRO format. -/
def bigLines : List String :=
  "big" :: "100000" :: ((List.range' 0 100000).map bigAtomLine ++ [demoZeroBox])

/-- Replace the atom-index column (characters 15 to 19) of a GRO atom line. -/
def spliceIdx (line s : String) : String :=
  String.mk (line.toList.take 15 ++ s.toList ++ line.toList.drop 20)

/-! ## Helper lemmas -/

/-- `String.toList` of `String.mk` is the identity. -/
theorem toList_mk (cs : List Char) : (String.mk cs).toList = cs := rfl

/-- `toList` distributes over string append. -/
theorem toList_append (a b : String) : (a ++ b).toList = a.toList ++ b.toList := by
  cases a
  cases b
  rfl

/-- Length of a left-padded string. -/
theorem length_padLeft (w : Nat) (s : String) :
    (padLeft w s).toList.length = max w s.toList.length := by
  simp [padLeft]
  omega

/-- Length of a right-padded string. -/
theorem length_padRight (w : Nat) (s : String) :
    (padRight w s).toList.length = max w s.toList.length := by
  simp [padRight]
  omega

/-! ## C1: frame state on read failure -/

/-- C1 (corrected, amended form): when the first atom line of a GRO step is
shorter than 44 characters, `GROFormat::read` throws a typed error, but the
frame is not left as it was: it keeps the partial mutations made before the
throw (the new "name" property, enabled velocities, and the resize to zero
atoms). -/
theorem C1_read_failure_keeps_partial_mutations
    (f : Frame) (t nl bad : String) (more : List String) (n : Nat)
    (hn : parseNat nl = some n) (hpos : 0 < n)
    (hcount : n ≤ more.length + 1) (hbad : bad.toList.length < 44) :
    groRead f (t :: nl :: bad :: more) =
      .err ("GRO Atom line is too small: " ++ bad)
        (((f.setName t).add_velocities).resize 0)
        (more.take (n - 1) ++ (bad :: more).drop n) := by
  obtain ⟨m, rfl⟩ : ∃ m, n = m + 1 := ⟨n - 1, (Nat.succ_pred_eq_of_pos hpos).symm⟩
  have hlen : ¬ ((bad :: more).length < m + 1) := by
    simp only [List.length_cons]
    omega
  simp only [groRead, hn, hlen, if_false, List.take_succ_cons, groAtomsLoop,
    parseAtomLine, hbad, if_pos, Nat.add_sub_cancel]

/-- Witness for C1: a concrete frame and malformed step. -/
theorem C1_read_failure_keeps_partial_mutations_witness :
    groRead Frame0 ["t", "1", "bad"] =
      .err ("GRO Atom line is too small: " ++ "bad")
        (((Frame0.setName "t").add_velocities).resize 0)
        (([] : List String).take 0 ++ (["bad"] : List String).drop 1) :=
  C1_read_failure_keeps_partial_mutations Frame0 "t" "1" "bad" [] 1
    (by decide) (by decide) (by decide) (by decide)

/-- C1 counterexample: on a malformed step the frame is not left exactly as
it was before the call: reading leaves the new name property, enabled
velocities and zero atoms in the frame. -/
theorem C1_claim_counterexample :
    groRead Frame0 ["t", "1", "bad"] =
      .err "GRO Atom line is too small: bad"
        ⟨some "t", [], [], some [], .infinite, []⟩ [] ∧
    (⟨some "t", [], [], some [], .infinite, []⟩ : Frame) ≠ Frame0 := by
  constructor
  · rfl
  · decide

/-! ## C4: selection parse errors carry no byte offset -/

/-- C4 (corrected, amended form): an index selection whose argument is not
an integral number raises a `ParserError` (the parser's `SelectionError`)
carrying the fixed message "Index selection should contain an integer" and
nothing else; in particular no byte offset is part of the error. -/
theorem C4_index_error_carries_message_only
    (op : Token) (b : BinOp) (q : ℚ) (rest : List Token)
    (hop : tokenToBinOp op = some b) (hq : q.den ≠ 1) :
    parseIndex (op :: Token.num q :: Token.ident "index" :: rest) =
      .error ⟨"Index selection should contain an integer"⟩ := by
  cases op <;> simp_all [parseIndex, tokenToBinOp]

/-- Witness for C4: the concrete invalid selection with value 7/2. -/
theorem C4_index_error_carries_message_only_witness :
    parseIndex [Token.eq, Token.num (7 / 2), Token.ident "index"] =
      .error ⟨"Index selection should contain an integer"⟩ :=
  C4_index_error_carries_message_only Token.eq BinOp.EQ (7 / 2) []
    (by decide) (by with_unfolding_all decide)

/-- C4 counterexample: two syntactically invalid selections whose offending
token sits at different byte offsets of the selection string (the token
streams of "index == 1.5" and "index < 1.5": the bad number starts at byte
9 in the first and byte 8 in the second) produce exactly the same error
value, so the raised `SelectionError` cannot carry the byte offset of the
error within the string. -/
theorem C4_claim_counterexample :
    parseIndex [Token.eq, Token.num (3 / 2), Token.ident "index"] =
      .error ⟨"Index selection should contain an integer"⟩ ∧
    parseIndex [Token.lt, Token.num (3 / 2), Token.ident "index"] =
      .error ⟨"Index selection should contain an integer"⟩ ∧
    parseIndex [Token.eq, Token.num (3 / 2), Token.ident "index"] =
      parseIndex [Token.lt, Token.num (3 / 2), Token.ident "index"] := by
  refine ⟨by with_unfolding_all rfl, by with_unfolding_all rfl, by with_unfolding_all rfl⟩

/-! ## C5: prefix boolean grammar -/

/-- C5 (confirmed): the boolean operators parse prefix-style: on an `and`
(or `or`) token the parser consumes the token, parses the right operand
first, then the left operand, and produces the conjunction (disjunction) of
the two; a missing operand raises a parser error naming the missing side. -/
theorem C5_boolean_prefix_parsing
    (dp : List Token → Except ParserError (SelAst × List Token))
    (rest rest2 rest3 : List Token) (lhs rhs : SelAst) :
    (rest ≠ [] → dp rest = .ok (rhs, rest2) → rest2 ≠ [] →
       dp rest2 = .ok (lhs, rest3) →
       parseAndWith dp (Token.andT :: rest) = .ok (SelAst.andE lhs rhs, rest3) ∧
       parseOrWith dp (Token.orT :: rest) = .ok (SelAst.orE lhs rhs, rest3)) ∧
    (parseAndWith dp [Token.andT] =
       .error ⟨"Missing right-hand side operand to and"⟩) ∧
    (parseOrWith dp [Token.orT] =
       .error ⟨"Missing right-hand side operand to or"⟩) ∧
    (rest ≠ [] → dp rest = .ok (rhs, []) →
       parseAndWith dp (Token.andT :: rest) =
         .error ⟨"Missing left-hand side operand to and"⟩ ∧
       parseOrWith dp (Token.orT :: rest) =
         .error ⟨"Missing left-hand side operand to or"⟩) := by
  refine ⟨?_, by simp [parseAndWith], by simp [parseOrWith], ?_⟩
  · intro h1 h2 h3 h4
    have e1 : rest.isEmpty = false := by
      cases rest
      · exact absurd rfl h1
      · rfl
    have e2 : rest2.isEmpty = false := by
      cases rest2
      · exact absurd rfl h3
      · rfl
    constructor
    · simp [parseAndWith, e1, e2, h2, h4]
    · simp [parseOrWith, e1, e2, h2, h4]
  · intro h1 h2
    have e1 : rest.isEmpty = false := by
      cases rest
      · exact absurd rfl h1
      · rfl
    constructor
    · simp [parseAndWith, e1, h2]
    · simp [parseOrWith, e1, h2]

/-- Witness for C5: parsing the reversed-postfix stream of
"index != 2 and index == 1" through the dispatcher. -/
theorem C5_boolean_prefix_parsing_witness :
    parseAndWith dispatch
      (Token.andT :: [Token.eq, Token.num 1, Token.ident "index",
        Token.neq, Token.num 2, Token.ident "index"]) =
      .ok (SelAst.andE (SelAst.indexE BinOp.NEQ 2) (SelAst.indexE BinOp.EQ 1), []) :=
  ((C5_boolean_prefix_parsing dispatch
      [Token.eq, Token.num 1, Token.ident "index",
        Token.neq, Token.num 2, Token.ident "index"]
      [Token.neq, Token.num 2, Token.ident "index"] []
      (SelAst.indexE BinOp.NEQ 2) (SelAst.indexE BinOp.EQ 1)).1
    (by decide) (by with_unfolding_all rfl) (by decide)
    (by with_unfolding_all rfl)).1

/-! ## C8: Trajectory::read_step -/

/-- C8 (confirmed; the Trajectory engine is modelled from the spec, src/
only contains the GROFormat it delegates to): `read_step(i)` reads step `i`
and sets the step index to `i + 1` when `i < nsteps()`, and fails with an
error when `i >= nsteps()`. -/
theorem C8_trajectory_read_step (t : Trajectory) (i : Nat) (frame : Frame) :
    (i < t.fmt.nsteps →
       (∀ f r, t.fmt.read_step i frame = .ok f r →
          t.read_step i frame = .ok (f, { t with step_index := i + 1 })) ∧
       (∀ m f r, t.fmt.read_step i frame = .err m f r →
          t.read_step i frame = .error m)) ∧
    (t.fmt.nsteps ≤ i →
       t.read_step i frame = .error "can not read file past end") := by
  constructor
  · intro hlt
    constructor
    · intro f r hok
      simp [Trajectory.read_step, hlt, hok]
    · intro m f r herr
      simp [Trajectory.read_step, hlt, herr]
  · intro hge
    simp [Trajectory.read_step, Nat.not_lt.mpr hge]

/-- Witness for C8: reading step 1 of the two-step demo trajectory. -/
theorem C8_trajectory_read_step_witness :
    Trajectory.read_step ⟨⟨demoLines, [0, 4]⟩, 0⟩ 1 Frame0 =
      .ok (demoF2, ⟨⟨demoLines, [0, 4]⟩, 2⟩) :=
  ((C8_trajectory_read_step ⟨⟨demoLines, [0, 4]⟩, 0⟩ 1 Frame0).1
    (by decide)).1 demoF2 [] (by with_unfolding_all rfl)

/-! ## Structural lemmas about GROFormat::read -/

/-- A successfully parsed atom line shorter than 68 characters has no
velocity columns. -/
theorem parseAtomLine_vel_of_short (l : String) (p : GroAtomLine)
    (h : parseAtomLine l = .ok p) (hshort : l.toList.length < 68) :
    p.vel = none := by
  simp only [parseAtomLine] at h
  split at h
  · exact absurd h (by simp)
  · split at h
    · rw [if_neg (by omega)] at h
      cases h
      rfl
    · exact absurd h (by simp)

/-- Flushing the residue map into the frame does not change its cell. -/
theorem addResidues_cell (res : List (Nat × Residue)) (f : Frame) :
    (res.foldl (fun fr kr => fr.add_residue kr.2) f).cell = f.cell := by
  induction res generalizing f with
  | nil => rfl
  | cons a l ih => simpa [Frame.add_residue] using ih (f.add_residue a.2)

/-- Flushing the residue map into the frame does not change its positions. -/
theorem addResidues_positions (res : List (Nat × Residue)) (f : Frame) :
    (res.foldl (fun fr kr => fr.add_residue kr.2) f).positions = f.positions := by
  induction res generalizing f with
  | nil => rfl
  | cons a l ih => simpa [Frame.add_residue] using ih (f.add_residue a.2)

/-- Flushing the residue map into the frame does not change its velocities. -/
theorem addResidues_velocities (res : List (Nat × Residue)) (f : Frame) :
    (res.foldl (fun fr kr => fr.add_residue kr.2) f).velocities = f.velocities := by
  induction res generalizing f with
  | nil => rfl
  | cons a l ih => simpa [Frame.add_residue] using ih (f.add_residue a.2)

/-- A successful box read consumes exactly one line and only changes the
cell and the residues of the frame. -/
theorem groReadBox_ok (f : Frame) (res : List (Nat × Residue))
    (rest : List String) (g : Frame) (r : List String)
    (h : groReadBox f res rest = .ok g r) :
    ∃ box, rest = box :: r ∧ g.positions = f.positions ∧
      g.velocities = f.velocities := by
  cases rest with
  | nil => exact absurd h (by simp [groReadBox])
  | cons box rest' =>
    refine ⟨box, ?_⟩
    simp only [groReadBox] at h
    split at h
    · exact absurd h (by simp)
    · rename_i frame' heq
      cases h
      have hf : frame'.positions = f.positions ∧ frame'.velocities = f.velocities := by
        repeat' split at heq
        all_goals first
          | (injection heq with heq; subst heq; exact ⟨rfl, rfl⟩)
          | simp at heq
      exact ⟨rfl, by rw [addResidues_positions, hf.1],
        by rw [addResidues_velocities, hf.2]⟩

/-- A successful atom loop ends in a successful box read; the loop adds one
atom per line, and appends one velocity per line (zero for the lines without
velocity columns). -/
theorem groAtomsLoop_ok_shape : ∀ (ls : List String) (f : Frame)
    (res : List (Nat × Residue)) (rest : List String) (g : Frame)
    (r : List String), groAtomsLoop f res ls rest = .ok g r →
    ∃ f' res', groReadBox f' res' rest = .ok g r ∧
      f'.positions.length = f.positions.length + ls.length ∧
      (∀ vs, f.velocities = some vs → ∃ ws, f'.velocities = some (vs ++ ws) ∧
         ws.length = ls.length ∧
         ((∀ l ∈ ls, l.toList.length < 68) →
            ws = List.replicate ls.length Vector3D.zero)) := by
  intro ls
  induction ls with
  | nil =>
    intro f res rest g r h
    exact ⟨f, res, h, by simp, fun vs hvs =>
      ⟨[], by simp [hvs], by simp, fun _ => by simp⟩⟩
  | cons line ls ih =>
    intro f res rest g r h
    simp only [groAtomsLoop] at h
    split at h
    · exact absurd h (by simp)
    · rename_i parsed hparse
      cases hpv : parsed.vel with
      | some v =>
        rw [hpv] at h
        obtain ⟨f', res', hbox, hlen, hvel⟩ := ih _ _ _ _ _ h
        refine ⟨f', res', hbox, ?_, ?_⟩
        · simp [Frame.add_atom] at hlen
          simp [hlen]
          omega
        · intro vs hvs
          have : (f.add_atom ⟨parsed.atomName⟩ parsed.pos v).velocities =
              some (vs ++ [v]) := by
            simp [Frame.add_atom, hvs]
          obtain ⟨ws', hw1, hw2, _⟩ := hvel _ this
          refine ⟨v :: ws', ?_, by simp [hw2], ?_⟩
          · rw [hw1]
            simp
          · intro hshort
            have := parseAtomLine_vel_of_short line parsed hparse
              (hshort line (by simp))
            rw [this] at hpv
            cases hpv
      | none =>
        rw [hpv] at h
        obtain ⟨f', res', hbox, hlen, hvel⟩ := ih _ _ _ _ _ h
        refine ⟨f', res', hbox, ?_, ?_⟩
        · simp [Frame.add_atom] at hlen
          simp [hlen]
          omega
        · intro vs hvs
          have : (f.add_atom ⟨parsed.atomName⟩ parsed.pos Vector3D.zero).velocities =
              some (vs ++ [Vector3D.zero]) := by
            simp [Frame.add_atom, hvs]
          obtain ⟨ws', hw1, hw2, hw3⟩ := hvel _ this
          refine ⟨Vector3D.zero :: ws', ?_, by simp [hw2], ?_⟩
          · rw [hw1]
            simp
          · intro hshort
            have h3 := hw3 (fun l hl => hshort l (by simp [hl]))
            rw [h3]
            simp [List.replicate_succ]

/-! ## C7: unit conversion (nm on disk, angstrom in memory) -/

/-- C7 (confirmed): reading multiplies every position and velocity component
parsed from the file by 10 (nanometers to angstroms), and writing divides
every in-memory component by 10 (`scale (1 / 10)`) before formatting it. -/
theorem C7_unit_conversion :
    (∀ line p, parseAtomLine line = .ok p →
       ∃ x y z, parseNum (substr line 20 8) = some x ∧
         parseNum (substr line 28 8) = some y ∧
         parseNum (substr line 36 8) = some z ∧
         p.pos = ⟨x * 10, y * 10, z * 10⟩) ∧
    (∀ line p v, parseAtomLine line = .ok p → p.vel = some v →
       ∃ vx vy vz, parseNum (substr line 44 8) = some vx ∧
         parseNum (substr line 52 8) = some vy ∧
         parseNum (substr line 60 8) = some vz ∧
         v = ⟨vx * 10, vy * 10, vz * 10⟩) ∧
    (∀ f i m line w m', groWriteAtom f i m = .ok (line, w, m') →
       f.velocities = none →
       ∃ front, line = front
         ++ fmtFixed ((f.positions.getD i Vector3D.zero).scale (1 / 10)).x 3 8
         ++ fmtFixed ((f.positions.getD i Vector3D.zero).scale (1 / 10)).y 3 8
         ++ fmtFixed ((f.positions.getD i Vector3D.zero).scale (1 / 10)).z 3 8) ∧
    (∀ f i m line w m' vs, groWriteAtom f i m = .ok (line, w, m') →
       f.velocities = some vs →
       ∃ front, line = front
         ++ fmtFixed ((f.positions.getD i Vector3D.zero).scale (1 / 10)).x 3 8
         ++ fmtFixed ((f.positions.getD i Vector3D.zero).scale (1 / 10)).y 3 8
         ++ fmtFixed ((f.positions.getD i Vector3D.zero).scale (1 / 10)).z 3 8
         ++ fmtFixed ((vs.getD i Vector3D.zero).scale (1 / 10)).x 4 8
         ++ fmtFixed ((vs.getD i Vector3D.zero).scale (1 / 10)).y 4 8
         ++ fmtFixed ((vs.getD i Vector3D.zero).scale (1 / 10)).z 4 8) := by
  refine ⟨?_, ?_, ?_, ?_⟩
  · intro line p h
    simp only [parseAtomLine] at h
    split at h
    · exact absurd h (by simp)
    · split at h
      · split at h
        · split at h
          · injection h with h
            subst h
            exact ⟨_, _, _, by assumption, by assumption, by assumption, rfl⟩
          · exact absurd h (by simp)
        · injection h with h
          subst h
          exact ⟨_, _, _, by assumption, by assumption, by assumption, rfl⟩
      · exact absurd h (by simp)
  · intro line p v h hv
    simp only [parseAtomLine] at h
    split at h
    · exact absurd h (by simp)
    · split at h
      · split at h
        · split at h
          · injection h with h
            subst h
            simp only at hv
            injection hv with hv
            exact ⟨_, _, _, by assumption, by assumption, by assumption, hv.symm⟩
          · exact absurd h (by simp)
        · injection h with h
          subst h
          simp only at hv
          cases hv
      · exact absurd h (by simp)
  · intro f i m line w m' h hvel
    simp only [groWriteAtom, hvel] at h
    split at h
    · exact absurd h (by simp)
    · injection h with h
      exact ⟨_, (congrArg Prod.fst h).symm⟩
  · intro f i m line w m' vs h hvel
    simp only [groWriteAtom, hvel] at h
    split at h
    · exact absurd h (by simp)
    · split at h
      · exact absurd h (by simp)
      · injection h with h
        exact ⟨_, (congrArg Prod.fst h).symm⟩

/-- Witness for C7: the coordinates 0.100/0.200/0.300 of the demo atom line
become 1/2/3 angstroms. -/
theorem C7_unit_conversion_witness :
    GroAtomLine.pos ⟨some 1, "RES", "A", ⟨1, 2, 3⟩, none⟩ =
      ⟨(1 / 10 : ℚ) * 10, (2 / 10 : ℚ) * 10, (3 / 10 : ℚ) * 10⟩ := by
  obtain ⟨x, y, z, hx, hy, hz, hp⟩ :=
    C7_unit_conversion.1 atomLine44 ⟨some 1, "RES", "A", ⟨1, 2, 3⟩, none⟩
      (by with_unfolding_all rfl)
  have ex : some x = some ((1 : ℚ) / 10) := by
    rw [← hx]
    with_unfolding_all rfl
  have ey : some y = some ((2 : ℚ) / 10) := by
    rw [← hy]
    with_unfolding_all rfl
  have ez : some z = some ((3 : ℚ) / 10) := by
    rw [← hz]
    with_unfolding_all rfl
  injection ex with ex
  injection ey with ey
  injection ez with ez
  rw [hp, ex, ey, ez]

/-! ## C6: box line interpretation -/

/-- C6 (confirmed): for a GRO step whose final box line has exactly 3
parseable fields, the frame cell becomes the orthorhombic cell of 10 times
those fields; with exactly 9 fields, interpreted in the order
v1x v2y v3z 0 0 v2x 0 v3x v3y, the cell becomes the triclinic cell of the
corresponding upper-triangular matrix scaled by 10. -/
theorem C6_box_line_sets_cell
    (f f' : Frame) (t nl box : String) (atomLines after rest : List String)
    (n : Nat) (hn : parseNat nl = some n) (hlen : atomLines.length = n)
    (hread : groRead f (t :: nl :: (atomLines ++ box :: after)) = .ok f' rest) :
    (∀ a b c va vb vc, split box ' ' = [a, b, c] →
       parseNum a = some va → parseNum b = some vb → parseNum c = some vc →
       f'.cell = UnitCell.ortho (va * 10) (vb * 10) (vc * 10)) ∧
    (∀ vals v1x v2y v3z v2x v3x v3y, split box ' ' = vals → vals.length = 9 →
       parseNum (vals.getD 0 "") = some v1x →
       parseNum (vals.getD 1 "") = some v2y →
       parseNum (vals.getD 2 "") = some v3z →
       parseNum (vals.getD 5 "") = some v2x →
       parseNum (vals.getD 7 "") = some v3x →
       parseNum (vals.getD 8 "") = some v3y →
       f'.cell = UnitCell.triclinic
         ⟨v1x * 10, v2x * 10, v3x * 10, 0, v2y * 10, v3y * 10, 0, 0, v3z * 10⟩) := by
  have hnotlt : ¬ ((atomLines ++ box :: after).length < n) := by
    simp [List.length_append, hlen]
  simp only [groRead, hn, hnotlt, if_false, List.take_left' hlen,
    List.drop_left' hlen] at hread
  obtain ⟨f'', res'', hbox, -, -⟩ :=
    groAtomsLoop_ok_shape _ _ _ _ _ _ hread
  simp only [groReadBox] at hbox
  split at hbox
  · exact absurd hbox (by simp)
  · rename_i frame' heq
    injection hbox with hbf hbr
    constructor
    · intro a b c va vb vc hsplit hpa hpb hpc
      rw [hsplit] at heq
      simp only [List.getD_cons_zero, List.getD_cons_succ, hpa, hpb, hpc] at heq
      rw [if_pos (by simp : ([a, b, c] : List String).length = 3)] at heq
      injection heq with heq
      rw [← hbf, addResidues_cell, ← heq]
    · intro vals v1x v2y v3z v2x v3x v3y hsplit h9 hp0 hp1 hp2 hp5 hp7 hp8
      rw [hsplit] at heq
      rw [if_neg (show ¬ (vals.length = 3) by omega), if_pos h9] at heq
      simp only [hp0, hp1, hp2, hp5, hp7, hp8] at heq
      injection heq with heq
      rw [← hbf, addResidues_cell, ← heq]

/-- Witness for C6: a zero-atom step with 3-field box line 1.0 2.0 3.0
yields an orthorhombic cell of 10, 20, 30 angstroms. -/
theorem C6_box_line_sets_cell_witness :
    demoF1.cell = UnitCell.ortho ((1 : ℚ) * 10) ((2 : ℚ) * 10) ((3 : ℚ) * 10) :=
  (C6_box_line_sets_cell Frame0 demoF1 "t" "1" demoBox [atomLine44] demoRest1
      demoRest1 1 (by decide) (by decide) (by with_unfolding_all rfl)).1
    "1.0" "2.0" "3.0" 1 2 3 (by with_unfolding_all rfl)
    (by with_unfolding_all rfl) (by with_unfolding_all rfl)
    (by with_unfolding_all rfl)

/-! ## C10: velocities after a successful read -/

/-- The frame state after the header handling of `GROFormat::read`: no atoms,
empty velocity storage. -/
theorem prep_frame (f : Frame) (t : String) :
    (((f.setName t).add_velocities).resize 0).velocities = some [] ∧
    (((f.setName t).add_velocities).resize 0).positions = [] := by
  cases hv : f.velocities <;>
    simp [Frame.setName, Frame.add_velocities, hv, Frame.resize]

/-- C10 (confirmed): after every successful `GROFormat::read` the frame
contains velocity data (velocities are enabled unconditionally before any
atom is added), with one velocity per atom; when no line of the file has
velocity columns (length at least 68), every velocity is zero. -/
theorem C10_read_always_adds_velocities (f f' : Frame)
    (lines rest : List String) (h : groRead f lines = .ok f' rest) :
    (∃ vs, f'.velocities = some vs ∧ vs.length = f'.size) ∧
    ((∀ l ∈ lines, l.toList.length < 68) →
       f'.velocities = some (List.replicate f'.size Vector3D.zero)) := by
  match lines, h with
  | t :: nl :: rest2, h => ?_
  simp only [groRead] at h
  split at h
  · exact absurd h (by simp)
  · rename_i n hn
    split at h
    · exact absurd h (by simp)
    · obtain ⟨f'', res'', hbox, hplen, hvel⟩ :=
        groAtomsLoop_ok_shape _ _ _ _ _ _ h
      obtain ⟨box, hrest, hgp, hgv⟩ := groReadBox_ok _ _ _ _ _ hbox
      obtain ⟨ws, hws, hwlen, hwshort⟩ :=
        hvel [] (prep_frame f t).1
      have hsize : f'.size = ws.length := by
        have h1 := (prep_frame f t).2
        rw [Frame.size, hgp, hplen, h1]
        simp [hwlen]
      constructor
      · exact ⟨ws, by rw [hgv, hws]; simp, by rw [hsize]⟩
      · intro hshort
        have hs : ∀ l ∈ (rest2.take n), l.toList.length < 68 := by
          intro l hl
          exact hshort l (by
            have := List.take_subset n rest2 hl
            simp [this])
        have h3 := hwshort hs
        have h4 : f'.size = (rest2.take n).length := by
          rw [hsize, h3, List.length_replicate]
        rw [hgv, hws, h3, h4]
        simp

/-- Witness for C10: the demo file carries no velocities, yet the frame read
from it has one (zero) velocity per atom. -/
theorem C10_read_always_adds_velocities_witness :
    demoF1.velocities = some (List.replicate demoF1.size Vector3D.zero) := by
  have h : groRead Frame0 demoLines = .ok demoF1 demoRest1 := by
    with_unfolding_all rfl
  exact (C10_read_always_adds_velocities Frame0 demoF1 demoLines demoRest1 h).2
    (by decide)

/-! ## C3: GRO format limits on write -/

/-- C3 counterexample: writing a frame whose single atom belongs to a
residue with id 100000 (> 99999) puts "-1", not "*****", in the residue id
column (a warning is emitted and the write succeeds). -/
theorem C3_claim_counterexample :
    groWrite DemoResidFrame =
      .ok (["GRO File produced by chemfiles", "    1", demoResidLine, demoZeroBox],
           ["Too many residues for GRO format, removing residue id"]) ∧
    substr demoResidLine 0 5 = "   -1" ∧
    substr demoResidLine 0 5 ≠ "*****" := by
  refine ⟨by with_unfolding_all rfl, by decide, by decide⟩

/-- C3 (corrected, amended form): atom indices of at least 99999 (printed
index above 99999) are written as "*****" with a warning; residue IDs above
99999 emit a warning but their column falls back to "-1", not "*****"; the
warnings are not fatal: the write of the atom still succeeds. -/
theorem C3_gro_limit_columns (i : Nat) (f : Frame) (m : Nat) (line : String)
    (w : List String) (m' : Nat) (r : Residue) (v : Nat) :
    (99999 ≤ i → to_gro_index i = "*****") ∧
    (i < 99999 → to_gro_index i = natStr (i + 1)) ∧
    (groWriteAtom f i m = .ok (line, w, m') → 99999 ≤ i →
       "Too many atoms for GRO format, removing atomic id" ∈ w) ∧
    (groWriteAtom f i m = .ok (line, w, m') → f.residue_for_atom i = some r →
       r.id = some v → 99999 < v →
       (∃ tail, line = padLeft 5 "-1" ++ tail) ∧
       "Too many residues for GRO format, removing residue id" ∈ w) ∧
    (check_values_size ((f.positions.getD i Vector3D.zero).scale (1 / 10)) 8
        = false → f.velocities = none →
       ∃ line' w' m'', groWriteAtom f i m = .ok (line', w', m'')) := by
  refine ⟨fun hi => by simp [to_gro_index, hi], fun hi => by
    simp [to_gro_index]
    omega, ?_, ?_, ?_⟩
  · intro h hi
    simp only [groWriteAtom] at h
    repeat' split at h
    all_goals first
      | (injection h
         done)
      | (simp only [Except.ok.injEq, Prod.mk.injEq] at h
         obtain ⟨-, h2, -⟩ := h
         subst h2
         first | omega | simp [hi])
  · intro h hres hid hv
    simp only [groWriteAtom, hres, hid] at h
    rw [if_neg (show ¬ v ≤ 99999 by omega)] at h
    repeat' split at h
    all_goals first
      | (injection h
         done)
      | (simp only [Except.ok.injEq, Prod.mk.injEq] at h
         obtain ⟨h1, h2, -⟩ := h
         subst h2
         exact ⟨⟨_, h1.symm⟩, by simp⟩)
  · intro hchk hvel
    simp only [groWriteAtom, hvel, hchk]
    repeat' split
    all_goals first
      | exact ⟨_, _, _, rfl⟩
      | simp_all

/-- Witness for C3: atom index 99999 prints as "*****" while 99998 prints
as the one-based "99999", and writing an atom of the empty frame at index
99999 succeeds despite the warning. -/
theorem C3_gro_limit_columns_witness :
    to_gro_index 99999 = "*****" ∧ to_gro_index 99998 = natStr 99999 ∧
    (∃ line' w' m'', groWriteAtom Frame0 99999 1 = .ok (line', w', m'')) := by
  have h := C3_gro_limit_columns 99999 Frame0 1 "" [] 0 ⟨"", none, []⟩ 0
  have h2 := C3_gro_limit_columns 99998 Frame0 1 "" [] 0 ⟨"", none, []⟩ 0
  exact ⟨h.1 (by decide), h2.2.1 (by decide),
    h.2.2.2.2 (by with_unfolding_all rfl) (by with_unfolding_all rfl)⟩

/-! ## C2: step indexing and random access -/

/-- A successful read consumes the title line, the atom count line, the
`n` atom lines and the box line, leaving exactly the rest. -/
theorem groRead_ok_consumes (f : Frame) (lines : List String) (g : Frame)
    (r : List String) (h : groRead f lines = .ok g r) :
    ∃ t nl rest2 n, lines = t :: nl :: rest2 ∧ parseNat nl = some n ∧
      n + 1 ≤ rest2.length ∧ r = rest2.drop (n + 1) := by
  match lines with
  | [] => exact absurd h (by simp [groRead])
  | [t] => exact absurd h (by simp [groRead])
  | t :: nl :: rest2 =>
    refine ⟨t, nl, rest2, ?_⟩
    simp only [groRead] at h
    split at h
    · exact absurd h (by simp)
    · rename_i n hn
      split at h
      · exact absurd h (by simp)
      · rename_i hlen
        obtain ⟨f', res', hbox, -, -⟩ := groAtomsLoop_ok_shape _ _ _ _ _ _ h
        obtain ⟨box, hdropn, -, -⟩ := groReadBox_ok _ _ _ _ _ hbox
        have hlen2 : (rest2.drop n).length = rest2.length - n := by simp
        rw [hdropn] at hlen2
        refine ⟨n, rfl, hn, by simp at hlen2; omega, ?_⟩
        have : rest2.drop (n + 1) = (rest2.drop n).drop 1 := by
          rw [List.drop_drop]
        rw [this, hdropn]
        simp

/-- A successful read means `forward` recognizes one step of the same
length at this position. -/
theorem forward_stepR_of_read_ok (f : Frame) (lines : List String) (g : Frame)
    (r : List String) (h : groRead f lines = .ok g r) :
    ∃ n, forward lines = .stepR (n + 3) ∧ r = lines.drop (n + 3) ∧
      n + 3 ≤ lines.length := by
  obtain ⟨t, nl, rest2, n, rfl, hn, hge, hr⟩ := groRead_ok_consumes f _ g r h
  refine ⟨n, ?_, ?_, ?_⟩
  · simp only [forward, hn]
    rw [if_neg (by omega)]
  · rw [hr]
    rfl
  · simp only [List.length_cons]
    omega

/-- When `forward` recognizes a step of `k` lines, the constructor scan
records the current position and continues after the step. -/
theorem scanSteps_stepR (lines : List String) (pos k : Nat)
    (h : forward lines = .stepR k) :
    scanSteps lines pos =
      (scanSteps (lines.drop k) (pos + k)).map (fun ps => pos :: ps) := by
  match lines with
  | [] => simp [forward] at h
  | [a] => simp [forward] at h
  | a :: b :: rest =>
    simp only [forward] at h
    cases hb : parseNat b with
    | none =>
      simp only [hb] at h
      exact absurd h (by simp)
    | some natoms =>
      simp only [hb] at h
      by_cases hl : rest.length < natoms + 1
      · rw [if_pos hl] at h
        exact absurd h (by simp)
      · rw [if_neg hl] at h
        injection h with h
        subst h
        simp only [scanSteps, hb, hl, if_false]
        have hd : (a :: b :: rest).drop (natoms + 3) = rest.drop (natoms + 1) := by
          rfl
        rw [hd, Nat.add_assoc]

/-- Sequential reading matches the recorded step positions: if `i` reads
succeed and one more read is possible, then the scan recorded at least
`i + 1` steps, the i-th recorded position is exactly the cursor after the
first `i` reads, and seeking there recovers the remaining lines. -/
theorem seqRead_scan (i : Nat) : ∀ (f : Frame) (lines : List String) (p : Nat)
    (ps : List Nat) (fi : Frame) (resti : List String),
    scanSteps lines p = some ps →
    seqRead f lines i = some (fi, resti) →
    (∃ g r, groRead fi resti = .ok g r) →
    i < ps.length ∧ ps.getD i 0 = p + (lines.length - resti.length) ∧
      resti.length ≤ lines.length ∧
      lines.drop (lines.length - resti.length) = resti := by
  induction i with
  | zero =>
    intro f lines p ps fi resti hscan hseq hread
    simp only [seqRead] at hseq
    injection hseq with hseq
    injection hseq with h1 h2
    subst h1
    subst h2
    obtain ⟨g, r, hg⟩ := hread
    obtain ⟨n, hfwd, -, -⟩ := forward_stepR_of_read_ok _ _ _ _ hg
    rw [scanSteps_stepR _ _ _ hfwd] at hscan
    cases hq : scanSteps (lines.drop (n + 3)) (p + (n + 3)) with
    | none =>
      rw [hq] at hscan
      exact absurd hscan (by simp)
    | some qs =>
      rw [hq] at hscan
      simp only [Option.map_some'] at hscan
      injection hscan with hscan
      subst hscan
      exact ⟨by simp, by simp, Nat.le_refl _, by simp⟩
  | succ i ih =>
    intro f lines p ps fi resti hscan hseq hread
    simp only [seqRead] at hseq
    split at hseq
    · rename_i f1 rest1 hg1
      obtain ⟨n, hfwd, hr1, hle⟩ := forward_stepR_of_read_ok _ _ _ _ hg1
      rw [scanSteps_stepR _ _ _ hfwd] at hscan
      cases hq : scanSteps (lines.drop (n + 3)) (p + (n + 3)) with
      | none =>
        rw [hq] at hscan
        exact absurd hscan (by simp)
      | some qs =>
        rw [hq] at hscan
        simp only [Option.map_some'] at hscan
        injection hscan with hscan
        subst hscan
        subst hr1
        obtain ⟨hilen, hgetD, hrle, hdropr⟩ :=
          ih f1 (lines.drop (n + 3)) (p + (n + 3)) qs fi resti hq hseq hread
        have hdl : (lines.drop (n + 3)).length = lines.length - (n + 3) := by
          simp
        rw [hdl] at hgetD hrle
        refine ⟨by simpa using hilen, ?_, by omega, ?_⟩
        · rw [List.getD_cons_succ, hgetD]
          omega
        · have hidx : lines.length - resti.length =
              (n + 3) + ((lines.drop (n + 3)).length - resti.length) := by
            simp only [List.length_drop]
            omega
          rw [hidx, ← List.drop_drop, hdropr]
    · exact absurd hseq (by simp)

/-- C2 (confirmed): opening a GRO trajectory records the step positions by
one linear forward scan; `nsteps` is the length of that vector; and for a
step reachable by sequential reading, `read_step i` seeks exactly to the
cursor position that sequential reading reaches after `i` reads and
delegates to `read`, so on the same frame it yields the very same result as
the (i+1)-th sequential read. -/
theorem C2_read_step_matches_sequential
    (lines : List String) (g : GROFormat) (f fi f' : Frame) (i : Nat)
    (resti rest' : List String)
    (hopen : GROFormat.openFile lines = some g)
    (hseq : seqRead f lines i = some (fi, resti))
    (hread : groRead fi resti = .ok f' rest') :
    g.nsteps = g.steps.length ∧
    i < g.nsteps ∧
    lines.drop (g.steps.getD i 0) = resti ∧
    (∀ h : Frame, g.read_step i h = groRead h resti) ∧
    g.read_step i fi = .ok f' rest' := by
  simp only [GROFormat.openFile] at hopen
  cases hs : scanSteps lines 0 with
  | none =>
    rw [hs] at hopen
    exact absurd hopen (by simp)
  | some ps =>
    rw [hs] at hopen
    simp only [Option.map_some'] at hopen
    injection hopen with hopen
    subst hopen
    obtain ⟨hlt, hgetD, hle, hdrop⟩ :=
      seqRead_scan i f lines 0 ps fi resti hs hseq ⟨f', rest', hread⟩
    rw [Nat.zero_add] at hgetD
    have hall : ∀ h : Frame, GROFormat.read_step ⟨lines, ps⟩ i h = groRead h resti := by
      intro h
      simp only [GROFormat.read_step]
      rw [hgetD, hdrop]
    exact ⟨rfl, hlt, by rw [hgetD, hdrop], hall, by rw [hall fi, hread]⟩

/-- Witness for C2: step 1 of the two-step demo file, reached sequentially
and by `read_step`. -/
theorem C2_read_step_matches_sequential_witness :
    GROFormat.read_step ⟨demoLines, [0, 4]⟩ 1 demoF1 = .ok demoF2 [] :=
  (C2_read_step_matches_sequential demoLines ⟨demoLines, [0, 4]⟩ Frame0 demoF1
      demoF2 1 demoRest1 []
      (by with_unfolding_all rfl) (by with_unfolding_all rfl)
      (by with_unfolding_all rfl)).2.2.2.2

/-! ## C9: writing 100000 atoms and reading them back -/

/-- `getD` on a replicated list whose default is the replicated element. -/
theorem getD_replicate_self {α : Type} (n i : Nat) (a : α) :
    (List.replicate n a).getD i a = a := by
  induction n generalizing i with
  | zero => cases i <;> simp [List.getD]
  | succ k ih =>
    cases i with
    | zero => simp [List.replicate_succ]
    | succ j => simp [List.replicate_succ, ih j]

/-- `getD` on a replicated list, inside the bounds. -/
theorem getD_replicate_lt {α : Type} (n i : Nat) (a d : α) (h : i < n) :
    (List.replicate n a).getD i d = a := by
  induction n generalizing i with
  | zero => omega
  | succ k ih =>
    cases i with
    | zero => simp [List.replicate_succ]
    | succ j => simpa [List.replicate_succ] using ih j (by omega)

/-- A natural below `10 ^ k` prints with at most `k` digits. -/
theorem natToChars_length_le (k : Nat) : ∀ n, 1 ≤ k → n < 10 ^ k →
    (natToChars n).length ≤ k := by
  induction k with
  | zero => omega
  | succ k ih =>
    intro n _ hn
    by_cases h10 : n < 10
    · rw [natToChars, dif_pos h10]
      simp
    · rw [natToChars, dif_neg h10]
      have hk : 1 ≤ k := by
        by_contra hk
        have : k = 0 := by omega
        subst this
        simp [pow_succ] at hn
        omega
      have hdiv : n / 10 < 10 ^ k := by
        rw [Nat.div_lt_iff_lt_mul (by omega)]
        calc n < 10 ^ (k + 1) := hn
        _ = 10 ^ k * 10 := by rw [pow_succ]
      have := ih (n / 10) hk hdiv
      simp only [List.length_append, List.length_cons, List.length_nil]
      omega

/-- A string no longer than the width pads to exactly the width. -/
theorem length_padLeft_of_le {w : Nat} {s : String}
    (h : s.toList.length ≤ w) : (padLeft w s).toList.length = w := by
  rw [length_padLeft]
  omega

/-- The residue column generated for `bigFrame` fits in 5 characters. -/
theorem bigResid_length (i : Nat) : (bigResid i).toList.length ≤ 5 := by
  unfold bigResid
  split
  · rename_i h
    have := natToChars_length_le 5 (i + 1) (by omega) (by omega)
    simpa [natStr] using this
  · decide

/-- The atom index column fits in 5 characters. -/
theorem to_gro_index_length (i : Nat) : (to_gro_index i).toList.length ≤ 5 := by
  unfold to_gro_index
  split
  · decide
  · rename_i h
    have := natToChars_length_le 5 (i + 1) (by omega) (by omega)
    simpa [natStr] using this

/-- Concatenating the three formatted zero coordinates equals the literal
24-character tail. -/
theorem string_append_zeros (t : String) :
    t ++ "   0.000" ++ "   0.000" ++ "   0.000" =
      t ++ "   0.000   0.000   0.000" := by
  cases t with
  | mk data =>
    show String.mk _ = String.mk _
    apply congrArg
    simp only [List.append_assoc]
    apply congrArg
    decide

/-- The columns before the numeric block of a `bigFrame` atom line span
exactly 20 characters. -/
theorem bigAtomLine_front_length (i : Nat) :
    ((padLeft 5 (bigResid i) ++ padRight 5 "XXXXX" ++ padLeft 5 "A" ++
      padLeft 5 (to_gro_index i)) : String).toList.length = 20 := by
  simp only [toList_append, List.length_append,
    length_padLeft_of_le (bigResid_length i),
    length_padLeft_of_le (to_gro_index_length i)]
  decide

/-- The character list of a `bigFrame` atom line splits into the 20 front
columns and the 24-character numeric tail. -/
theorem bigAtomLine_toList (i : Nat) :
    (bigAtomLine i).toList =
      ((padLeft 5 (bigResid i) ++ padRight 5 "XXXXX" ++ padLeft 5 "A" ++
        padLeft 5 (to_gro_index i)) : String).toList ++
      ("   0.000   0.000   0.000" : String).toList := by
  simp only [bigAtomLine, toList_append]

/-- The three coordinate columns of a `bigFrame` atom line, and its length. -/
theorem substr_bigAtomLine (i : Nat) :
    substr (bigAtomLine i) 20 8 = "   0.000" ∧
    substr (bigAtomLine i) 28 8 = "   0.000" ∧
    substr (bigAtomLine i) 36 8 = "   0.000" ∧
    (bigAtomLine i).toList.length = 44 := by
  have hf := bigAtomLine_front_length i
  have ht := bigAtomLine_toList i
  refine ⟨?_, ?_, ?_, ?_⟩
  · show String.mk _ = _
    rw [ht, List.drop_left' hf]
    decide
  · show String.mk _ = _
    rw [ht, show (28 : Nat) = 20 + 8 from rfl, ← List.drop_drop,
      List.drop_left' hf]
    decide
  · show String.mk _ = _
    rw [ht, show (36 : Nat) = 20 + 16 from rfl, ← List.drop_drop,
      List.drop_left' hf]
    decide
  · rw [ht, List.length_append, hf]
    decide

/-- Every `bigFrame` atom line parses successfully. -/
theorem parseAtomLine_bigAtomLine (i : Nat) :
    ∃ p, parseAtomLine (bigAtomLine i) = .ok p := by
  obtain ⟨h20, h28, h36, hlen⟩ := substr_bigAtomLine i
  have hz : parseNum "   0.000" = some (0 : ℚ) := by with_unfolding_all rfl
  unfold parseAtomLine
  rw [hlen, if_neg (by omega : ¬ (44 < 44)), h20, h28, h36, hz]
  exact ⟨_, rfl⟩

/-- Writing atom `i` of `bigFrame` with the generated residue id `i + 1`
produces exactly the expected line and warning. -/
theorem groWriteAtom_bigFrame (i : Nat) (hi : i < 100000) :
    groWriteAtom bigFrame i (i + 1) = .ok (bigAtomLine i, bigWarn i, i + 2) := by
  have hres : bigFrame.residue_for_atom i = none := rfl
  have hvel : bigFrame.velocities = none := rfl
  have hpos : bigFrame.positions.getD i Vector3D.zero = Vector3D.zero :=
    getD_replicate_self 100000 i Vector3D.zero
  have hatom : bigFrame.atoms.getD i ⟨""⟩ = Atom.mk "A" := by
    show (List.replicate 100000 (Atom.mk "A")).getD i (Atom.mk "") = Atom.mk "A"
    exact getD_replicate_lt 100000 i (Atom.mk "A") (Atom.mk "") hi
  have hchk : check_values_size (Vector3D.zero.scale (1 / 10)) 8 = false := by
    with_unfolding_all rfl
  have hfx : fmtFixed ((Vector3D.zero.scale (1 / 10)).x) 3 8 = "   0.000" := by
    with_unfolding_all rfl
  have hfy : fmtFixed ((Vector3D.zero.scale (1 / 10)).y) 3 8 = "   0.000" := by
    with_unfolding_all rfl
  have hfz : fmtFixed ((Vector3D.zero.scale (1 / 10)).z) 3 8 = "   0.000" := by
    with_unfolding_all rfl
  simp only [groWriteAtom, hres, hvel, hpos, hatom, hchk, hfx, hfy, hfz,
    Bool.false_eq_true, if_false]
  rw [string_append_zeros]
  simp only [bigAtomLine, bigResid, bigWarn, Atom.name, List.nil_append]

/-- The atom loop of the write of `bigFrame`, starting at atom `i` with the
matching generated residue id. -/
theorem groWriteAtoms_bigFrame : ∀ (cnt i : Nat), i + cnt ≤ 100000 →
    ∀ (L W : List String),
    groWriteAtoms bigFrame i cnt (i + 1) L W =
      .ok (L ++ (List.range' i cnt).map bigAtomLine,
           W ++ ((List.range' i cnt).map bigWarn).join, i + 1 + cnt) := by
  intro cnt
  induction cnt with
  | zero =>
    intro i h L W
    simp [groWriteAtoms, List.range']
  | succ c ihc =>
    intro i h L W
    have hstep := groWriteAtom_bigFrame i (by omega)
    simp only [groWriteAtoms, hstep]
    have hrec := ihc (i + 1) (by omega) (L ++ [bigAtomLine i]) (W ++ bigWarn i)
    rw [hrec]
    simp only [Except.ok.injEq, Prod.mk.injEq]
    have hr : List.range' i (c + 1) = i :: List.range' (i + 1) c := rfl
    refine ⟨?_, ?_, by omega⟩
    · rw [hr]
      simp [List.append_assoc]
    · rw [hr]
      simp [List.append_assoc]

/-- Splitting a `range'` in the middle. -/
theorem range'_split (s m n : Nat) :
    List.range' s (m + n) = List.range' s m ++ List.range' (s + m) n := by
  have h := List.range'_append s m n 1
  simp only [Nat.one_mul] at h
  rw [Nat.add_comm m n]
  exact h.symm

/-- The only warning of the `bigFrame` write is the atom-index one, emitted
at atom 99999. -/
theorem bigWarn_join :
    ((List.range' 0 100000).map bigWarn).join =
      ["Too many atoms for GRO format, removing atomic id"] := by
  have hs : (100000 : Nat) = 99999 + 1 := rfl
  rw [hs, range'_split 0 99999 1]
  have h1 : ((List.range' 0 99999).map bigWarn).join = [] := by
    rw [List.join_eq_nil_iff]
    intro l hl
    obtain ⟨j, hj, rfl⟩ := List.mem_map.mp hl
    have : j < 99999 := by
      have := List.mem_range'_1.mp hj
      omega
    simp [bigWarn]
    omega
  simp [h1]
  decide

/-- `std::to_string(100000)`. -/
theorem natStr_100000 : natStr 100000 = "100000" := by
  show String.mk (natToChars 100000) = "100000"
  rw [natToChars, dif_neg (by decide),
    show (100000 : Nat) / 10 = 10000 from by norm_num,
    show (100000 : Nat) % 10 = 0 from by norm_num]
  rw [natToChars, dif_neg (by decide),
    show (10000 : Nat) / 10 = 1000 from by norm_num,
    show (10000 : Nat) % 10 = 0 from by norm_num]
  rw [natToChars, dif_neg (by decide),
    show (1000 : Nat) / 10 = 100 from by norm_num,
    show (1000 : Nat) % 10 = 0 from by norm_num]
  rw [natToChars, dif_neg (by decide),
    show (100 : Nat) / 10 = 10 from by norm_num,
    show (100 : Nat) % 10 = 0 from by norm_num]
  rw [natToChars, dif_neg (by decide),
    show (10 : Nat) / 10 = 1 from by norm_num,
    show (10 : Nat) % 10 = 0 from by norm_num]
  rw [natToChars, dif_pos (by decide)]
  decide

/-- Writing `bigFrame` produces exactly `bigLines` with the single
atom-index warning. -/
theorem groWrite_bigFrame :
    groWrite bigFrame =
      .ok (bigLines, ["Too many atoms for GRO format, removing atomic id"]) := by
  have hsize : bigFrame.size = 100000 := by
    show (List.replicate 100000 Vector3D.zero).length = 100000
    exact List.length_replicate 100000 Vector3D.zero
  have hloop := groWriteAtoms_bigFrame 100000 0 (by omega) [] []
  simp only [List.nil_append, bigWarn_join] at hloop
  have hcell : groWriteCell UnitCell.infinite = .ok demoZeroBox := by
    with_unfolding_all rfl
  have hmax : initMaxResid bigFrame = 0 + 1 := rfl
  have hcount : padLeft 5 "100000" = "100000" := by decide
  rw [groWrite.eq_def]
  rw [hsize, hmax, hloop, natStr_100000, hcount]
  have hc2 : bigFrame.cell = UnitCell.infinite := rfl
  rw [hc2, hcell]
  rfl

/-- Reading the all-zero box line succeeds for any frame and residue map,
consuming it and preserving the positions. -/
theorem groReadBox_zeroBox (f : Frame) (res : List (Nat × Residue))
    (rest' : List String) :
    ∃ g, groReadBox f res (demoZeroBox :: rest') = .ok g rest' ∧
      g.positions = f.positions := by
  have hsplit : split demoZeroBox ' ' = ["0.00000", "0.00000", "0.00000"] := by
    with_unfolding_all rfl
  have hz : parseNum "0.00000" = some (0 : ℚ) := by with_unfolding_all rfl
  simp only [groReadBox, hsplit, List.getD_cons_zero, List.getD_cons_succ, hz]
  rw [if_pos (by simp : (["0.00000", "0.00000", "0.00000"] : List String).length = 3)]
  exact ⟨_, rfl, addResidues_positions res _⟩

/-- If every atom line parses and the box line is the all-zero one, the atom
loop succeeds, adding one atom per line. -/
theorem groAtomsLoop_zeroBox : ∀ (ls : List String) (f : Frame)
    (res : List (Nat × Residue)) (rest' : List String),
    (∀ l ∈ ls, ∃ p, parseAtomLine l = .ok p) →
    ∃ g, groAtomsLoop f res ls (demoZeroBox :: rest') = .ok g rest' ∧
      g.positions.length = f.positions.length + ls.length := by
  intro ls
  induction ls with
  | nil =>
    intro f res rest' _
    obtain ⟨g, hg, hp⟩ := groReadBox_zeroBox f res rest'
    exact ⟨g, hg, by simp [hp]⟩
  | cons line more ih =>
    intro f res rest' hok
    obtain ⟨p, hp⟩ := hok line (by simp)
    simp only [groAtomsLoop, hp]
    obtain ⟨g, hg, hlen⟩ := ih
      (match p.vel with
       | some v => f.add_atom ⟨p.atomName⟩ p.pos v
       | none => f.add_atom ⟨p.atomName⟩ p.pos Vector3D.zero)
      (match p.resid with
       | some r =>
         insertResidue res r p.resname
           ((match p.vel with
             | some v => f.add_atom ⟨p.atomName⟩ p.pos v
             | none => f.add_atom ⟨p.atomName⟩ p.pos Vector3D.zero).size - 1)
       | none => res)
      rest' (fun l hl => hok l (by simp [hl]))
    refine ⟨g, hg, ?_⟩
    rw [hlen]
    cases p.vel <;> simp [Frame.add_atom] <;> omega

/-- The header handling of a read, with the atom count given and enough
lines available. -/
theorem groRead_cons (f : Frame) (t nl : String) (rest2 : List String)
    (n : Nat) (hn : parseNat nl = some n) (hlen : ¬ (rest2.length < n)) :
    groRead f (t :: nl :: rest2) =
      groAtomsLoop (((f.setName t).add_velocities).resize 0) [] (rest2.take n)
        (rest2.drop n) := by
  simp only [groRead, hn, hlen, if_false]

/-- Reading back the written `bigFrame` file succeeds, recovering 100000
atoms. -/
theorem groRead_bigLines :
    ∃ g rest, groRead Frame0 bigLines = .ok g rest ∧ g.size = 100000 := by
  have hmaplen : ((List.range' 0 100000).map bigAtomLine).length = 100000 := by
    rw [List.length_map, List.length_range']
  have hcount : parseNat "100000" = some 100000 := by decide
  have hbody : ((List.range' 0 100000).map bigAtomLine ++ [demoZeroBox]).length
      = 100001 := by
    rw [List.length_append, List.length_map, List.length_range']
    rfl
  rw [show bigLines = "big" :: "100000" ::
    ((List.range' 0 100000).map bigAtomLine ++ [demoZeroBox]) from rfl]
  rw [groRead_cons Frame0 "big" "100000" _ 100000 hcount
    (by rw [hbody]; omega)]
  rw [List.take_left' hmaplen, List.drop_left' hmaplen]
  obtain ⟨g, hg, hlen⟩ := groAtomsLoop_zeroBox ((List.range' 0 100000).map bigAtomLine)
    (((Frame0.setName "big").add_velocities).resize 0) [] []
    (by
      intro l hl
      obtain ⟨j, hj, rfl⟩ := List.mem_map.mp hl
      exact parseAtomLine_bigAtomLine j)
  refine ⟨g, [], hg, ?_⟩
  rw [Frame.size, hlen, hmaplen]
  rfl

/-- The character list of a spliced line. -/
theorem spliceIdx_toList (line s : String) :
    (spliceIdx line s).toList =
      line.toList.take 15 ++ s.toList ++ line.toList.drop 20 := rfl

/-- Splicing the atom-index column of a GRO atom line does not change the
result of parsing it: the parser skips columns 15-19 entirely. -/
theorem parseAtomLine_spliceIdx (line s : String) (hs : s.toList.length = 5)
    (hl : 44 ≤ line.toList.length) :
    parseAtomLine (spliceIdx line s) = parseAtomLine line := by
  have hl20 : 20 ≤ line.toList.length := by omega
  have ht : (spliceIdx line s).toList =
      (line.toList.take 15 ++ s.toList) ++ line.toList.drop 20 := by
    rw [spliceIdx_toList line s, List.append_assoc]
  have hfl : (line.toList.take 15 ++ s.toList).length = 20 := by
    rw [List.length_append, List.length_take]
    omega
  have hlen : (spliceIdx line s).toList.length = line.toList.length := by
    rw [ht, List.length_append, hfl, List.length_drop]
    omega
  have htake : (spliceIdx line s).toList.take 15 = line.toList.take 15 := by
    rw [ht]
    rw [List.take_append_of_le_length (by rw [hfl]; omega)]
    rw [List.take_append_of_le_length (by rw [List.length_take]; omega)]
    rw [List.take_take]
    simp
  have hdrop : ∀ k, (spliceIdx line s).toList.drop (20 + k) =
      line.toList.drop (20 + k) := by
    intro k
    rw [ht, ← List.drop_drop, ← List.drop_drop, List.drop_left' hfl,
      List.drop_drop]
  have e1 : ∀ (a n : Nat), a + n ≤ 15 → ∀ cs : List Char,
      ((cs.take 15).drop a).take n = (cs.drop a).take n := by
    intro a n han cs
    rw [List.drop_take, List.take_take]
    congr 1
    omega
  have hsub15 : ∀ a n, a + n ≤ 15 →
      substr (spliceIdx line s) a n = substr line a n := by
    intro a n han
    show String.mk _ = String.mk _
    apply congrArg
    rw [← e1 a n han (spliceIdx line s).toList, htake, e1 a n han]
  have hsub20 : ∀ (a n : Nat), 20 ≤ a →
      substr (spliceIdx line s) a n = substr line a n := by
    intro a n ha
    show String.mk _ = String.mk _
    apply congrArg
    have hd := hdrop (a - 20)
    rw [show 20 + (a - 20) = a from by omega] at hd
    rw [hd]
  simp only [parseAtomLine, hlen,
    hsub15 0 5 (by omega), hsub15 5 5 (by omega), hsub15 10 5 (by omega),
    hsub20 20 8 (by omega), hsub20 28 8 (by omega), hsub20 36 8 (by omega),
    hsub20 44 8 (by omega), hsub20 52 8 (by omega), hsub20 60 8 (by omega)]
  rw [if_neg (show ¬ (line.toList.length < 44) by omega),
    if_neg (show ¬ (line.toList.length < 44) by omega)]

/-- C9 (confirmed): writing the 100000-atom frame emits "*****" in the
atom-index column of atom 99999 (with a warning) and the write succeeds;
reading the produced file back succeeds, recovering all 100000 atoms,
because the atom-index column (characters 15-19) is skipped rather than
parsed: splicing anything into it (in any atom line) does not change the
parse. -/
theorem C9_write_100000_atoms_roundtrip :
    groWrite bigFrame =
      .ok (bigLines, ["Too many atoms for GRO format, removing atomic id"]) ∧
    bigAtomLine 99999 ∈ bigLines ∧
    substr (bigAtomLine 99999) 15 5 = "*****" ∧
    (∃ g rest, groRead Frame0 bigLines = .ok g rest ∧ g.size = 100000) ∧
    (∀ line s, s.toList.length = 5 → 44 ≤ line.toList.length →
       parseAtomLine (spliceIdx line s) = parseAtomLine line) := by
  refine ⟨groWrite_bigFrame, ?_, ?_, groRead_bigLines, parseAtomLine_spliceIdx⟩
  · simp only [bigLines, List.mem_cons, List.mem_append]
    refine Or.inr (Or.inr (Or.inl ?_))
    exact List.mem_map.mpr ⟨99999, List.mem_range'_1.mpr (by omega), rfl⟩
  · have hf := bigAtomLine_front_length 99999
    have h3 : ((padLeft 5 (bigResid 99999) ++ padRight 5 "XXXXX" ++
        padLeft 5 "A") : String).toList.length = 15 := by
      simp only [toList_append, List.length_append,
        length_padLeft_of_le (bigResid_length 99999)]
      decide
    show String.mk _ = _
    rw [bigAtomLine_toList 99999]
    rw [show ((padLeft 5 (bigResid 99999) ++ padRight 5 "XXXXX" ++
        padLeft 5 "A" ++ padLeft 5 (to_gro_index 99999)) : String).toList =
      ((padLeft 5 (bigResid 99999) ++ padRight 5 "XXXXX" ++
        padLeft 5 "A") : String).toList ++ (padLeft 5 (to_gro_index 99999)).toList
      from by simp [toList_append]]
    rw [List.append_assoc, List.drop_left' h3]
    rw [List.take_append_of_le_length (by
      rw [length_padLeft_of_le (to_gro_index_length 99999)])]
    decide

/-- Witness for C9's column-skipping conjunct: splicing "*****" into the
index column of the demo atom line leaves the parse unchanged. -/
theorem C9_write_100000_atoms_roundtrip_witness :
    parseAtomLine (spliceIdx atomLine44 "*****") = parseAtomLine atomLine44 :=
  C9_write_100000_atoms_roundtrip.2.2.2.2 atomLine44 "*****"
    (by decide) (by decide)
